import Mathlib

/-!
Verification development for the browser-notepad document session and
enrichment layer.  The definitions below are a shallow embedding of the
JavaScript classes `StorageManager`, `HistoryManager`, `TabManager` and
`SectionManager` from the repository source.  JavaScript `Map` objects and
plain objects used as string-keyed dictionaries are embedded as association
lists in insertion order; DOM elements are embedded as the strings they
display; machine integers are embedded as `Int`/`Nat` (array indices are
small and never overflow); fallible code paths (a JavaScript `TypeError`
from dereferencing `undefined`) return `Option`.
-/

namespace BrowserNotepad

/-! ### Association lists: the embedding of JS `Map` / object dictionaries

`Map.set` replaces the value of an existing key in place (keeping the
original insertion position) and appends a fresh key at the end; `Map.get`
returns the value or `undefined`; `Map.delete` removes the entry. -/

def assocLookup {α : Type} : List (String × α) → String → Option α
  | [], _ => none
  | (k', v') :: rest, k => if k' = k then some v' else assocLookup rest k

def assocSet {α : Type} : List (String × α) → String → α → List (String × α)
  | [], k, v => [(k, v)]
  | (k', v') :: rest, k, v =>
      if k' = k then (k, v) :: rest else (k', v') :: assocSet rest k v

def assocErase {α : Type} : List (String × α) → String → List (String × α)
  | [], _ => []
  | (k', v') :: rest, k =>
      if k' = k then assocErase rest k else (k', v') :: assocErase rest k

theorem assocLookup_assocSet_self {α : Type} (l : List (String × α)) (k : String) (v : α) :
    assocLookup (assocSet l k v) k = some v := by
  induction l with
  | nil => simp [assocSet, assocLookup]
  | cons p rest ih =>
      by_cases h : p.1 = k
      · simp [assocSet, assocLookup, h]
      · simp [assocSet, assocLookup, h, ih]

theorem assocLookup_assocSet_ne {α : Type} (l : List (String × α)) (k k' : String) (v : α)
    (h : k ≠ k') : assocLookup (assocSet l k v) k' = assocLookup l k' := by
  induction l with
  | nil => simp [assocSet, assocLookup, h]
  | cons p rest ih =>
      by_cases hp : p.1 = k
      · simp [assocSet, assocLookup, hp, h]
      · simp [assocSet, assocLookup, hp, ih]

theorem assocLookup_assocErase_self {α : Type} (l : List (String × α)) (k : String) :
    assocLookup (assocErase l k) k = none := by
  induction l with
  | nil => simp [assocErase, assocLookup]
  | cons p rest ih =>
      by_cases hp : p.1 = k
      · simp [assocErase, hp, ih]
      · simp [assocErase, assocLookup, hp, ih]

theorem assocLookup_assocErase_ne {α : Type} (l : List (String × α)) (k k' : String)
    (h : k ≠ k') : assocLookup (assocErase l k) k' = assocLookup l k' := by
  induction l with
  | nil => simp [assocErase]
  | cons p rest ih =>
      by_cases hp : p.1 = k
      · simp [assocErase, assocLookup, hp, ih, h]
      · simp [assocErase, assocLookup, hp, ih]

/-! ### StorageManager

Source: `class StorageManager` (src/unnamed/part_000, lines 1255-1291).
`pendingWrites` is a `Map`, `localStorage` is the durable backing store.
The ~100 ms debounce timer is a scheduling detail; the state carried here
is the pending map and the durable map. -/

abbrev KVMap := List (String × String)

structure StorageState where
  pending : KVMap
  durable : KVMap
deriving Repr, DecidableEq

/-- `saveToLocalStorage(key, value)`: queue the value in the pending map
(and restart the debounce timer, which carries no state here). -/
def saveToLocalStorage (s : StorageState) (key value : String) : StorageState :=
  { s with pending := assocSet s.pending key value }

/-- `getFromLocalStorage(key, defaultValue)`: the pending value if the
pending map has the key, else `localStorage.getItem(key) || defaultValue` —
note the JS `||`: an absent durable value (`null`) and an empty durable
string are both falsy and yield the default. -/
def getFromLocalStorage (s : StorageState) (key defaultValue : String) : String :=
  match assocLookup s.pending key with
  | some v => v
  | none =>
      match assocLookup s.durable key with
      | some v => if v = "" then defaultValue else v
      | none => defaultValue

/-- `removeFromLocalStorage(key)`: delete from both maps immediately. -/
def removeFromLocalStorage (s : StorageState) (key : String) : StorageState :=
  { pending := assocErase s.pending key, durable := assocErase s.durable key }

/-- `flushWrites()` body, one pending entry at a time, against a durable
store in which `localStorage.setItem` may throw (quota/availability): the
parameter `fails` says which writes throw.  A throw inside `Map.forEach`
propagates immediately, so iteration stops at the failing entry; the result
is `Except.error` carrying the durable map as mutated so far. -/
def flushLoop (fails : String → String → Bool) : KVMap → KVMap → Except KVMap KVMap
  | [], durable => Except.ok durable
  | (k, v) :: rest, durable =>
      if fails k v then Except.error durable
      else flushLoop fails rest (assocSet durable k v)

/-- `flushWrites()`: iterate the pending map writing each entry durably,
then clear the pending map.  When a durable write throws, the exception
propagates out of `flushWrites` before `pendingWrites.clear()` runs, so the
pending map is left as it was.  The `Bool` records whether a throw occurred. -/
def flushWrites (fails : String → String → Bool) (s : StorageState) : StorageState × Bool :=
  match flushLoop fails s.pending s.durable with
  | Except.ok d => ({ pending := [], durable := d }, false)
  | Except.error d => ({ pending := s.pending, durable := d }, true)

/-! ### HistoryManager

Source: `class HistoryManager` (src/unnamed/part_000, lines 1293-1341).
`past` is a JS array used as a stack with its top at the END (`push`/`pop`);
`future` has its front at the HEAD (`unshift`/`shift`). -/

def maxHistorySize : Nat := 50

structure HistoryState where
  past : List String
  future : List String
  current : String
  isNavigating : Bool
deriving Repr, DecidableEq

def initHistory : HistoryState :=
  { past := [], future := [], current := "", isNavigating := false }

/-- The recording condition of `pushState`:
`this.current !== '' && this.current !== newState &&
 Math.abs(this.current.length - newState.length) > 5`. -/
def qualifies (current newState : String) : Prop :=
  current ≠ "" ∧ current ≠ newState ∧
    ((current.length : Int) - (newState.length : Int)).natAbs > 5

instance (current newState : String) : Decidable (qualifies current newState) := by
  unfold qualifies
  infer_instance

/-- `pushState(newState)`: a suppressed push only clears the flag; an
unsuppressed push records `current` onto `past` when it qualifies (evicting
the oldest entry once the length exceeds `maxHistorySize`), then always sets
`current` and empties `future`. -/
def pushState (h : HistoryState) (newState : String) : HistoryState :=
  if h.isNavigating then { h with isNavigating := false }
  else
    let past' :=
      if qualifies h.current newState then
        let p := h.past ++ [h.current]
        if p.length > maxHistorySize then p.tail else p
      else h.past
    { past := past', future := [], current := newState, isNavigating := false }

/-- `undo()`: pop the top of `past` into `current`, pushing the old
`current` onto the front of `future`; sets the suppression flag.  Returns
the text shown (or `none` on an empty `past`). -/
def undo (h : HistoryState) : Option String × HistoryState :=
  match h.past.getLast? with
  | none => (none, h)
  | some last =>
      (some last,
       { past := h.past.dropLast
         future := h.current :: h.future
         current := last
         isNavigating := true })

/-- `redo()`: shift the front of `future` into `current`, pushing the old
`current` onto `past` (with no size check); sets the suppression flag. -/
def redo (h : HistoryState) : Option String × HistoryState :=
  match h.future with
  | [] => (none, h)
  | f :: rest =>
      (some f,
       { past := h.past ++ [h.current]
         future := rest
         current := f
         isNavigating := true })

/-- A sequence of `pushState` calls. -/
def pushAll (h : HistoryState) (l : List String) : HistoryState :=
  l.foldl pushState h

/-- Each successive text of the sequence differs from the then-current text
by more than the 5-character length threshold. -/
def deltaRun : HistoryState → List String → Prop
  | _, [] => True
  | h, t :: rest =>
      ((h.current.length : Int) - (t.length : Int)).natAbs > 5 ∧
        deltaRun (pushState h t) rest

instance : ∀ (h : HistoryState) (l : List String), Decidable (deltaRun h l)
  | _, [] => by unfold deltaRun; infer_instance
  | h, t :: rest =>
      have : Decidable (deltaRun (pushState h t) rest) := instDecidableDeltaRun _ rest
      by unfold deltaRun; infer_instance

theorem undo_redo_current (h : HistoryState) (hp : h.past ≠ []) :
    (redo (undo h).2).2.current = h.current := by
  rcases h.past.eq_nil_or_concat with hnil | ⟨l', a, hconcat⟩
  · exact absurd hnil hp
  · simp [undo, hconcat, List.getLast?_concat, redo]

/-! ### Reachable HistoryManager states -/

inductive HistOp where
  | pushOp (text : String)
  | undoOp
  | redoOp
deriving Repr, DecidableEq

def applyHistOp (h : HistoryState) : HistOp → HistoryState
  | HistOp.pushOp t => pushState h t
  | HistOp.undoOp => (undo h).2
  | HistOp.redoOp => (redo h).2

/-- The state a fresh `HistoryManager` reaches after a sequence of
`pushState`/`undo`/`redo` calls. -/
def runHist (l : List HistOp) : HistoryState :=
  l.foldl applyHistOp initHistory

/-- The size argument preserved by every operation: `undo` and `redo` move
one snapshot between the two stacks, and `pushState` caps `past` at the
bound while emptying `future`. -/
def histInv (h : HistoryState) : Prop :=
  h.past.length + h.future.length ≤ maxHistorySize

theorem histInv_pushState (h : HistoryState) (t : String) (hh : histInv h) :
    histInv (pushState h t) := by
  unfold histInv at hh ⊢
  unfold pushState
  by_cases hn : h.isNavigating
  · simpa [hn] using hh
  · by_cases hq : qualifies h.current t
    · simp [hn, hq]
      by_cases hlen : maxHistorySize < h.past.length + 1
      · simp [hlen]
        omega
      · simp [hlen]
        omega
    · simp [hn, hq]
      omega

theorem histInv_applyHistOp (h : HistoryState) (op : HistOp) (hh : histInv h) :
    histInv (applyHistOp h op) := by
  cases op with
  | pushOp t => exact histInv_pushState h t hh
  | undoOp =>
      unfold histInv at hh ⊢
      unfold applyHistOp undo
      rcases h.past.eq_nil_or_concat with hnil | ⟨l', a, hconcat⟩
      · simp only [hnil] at hh
        simpa [hnil] using hh
      · rw [hconcat]
        rw [hconcat] at hh
        simp [List.getLast?_concat, List.dropLast_concat]
        simp [List.length_append] at hh
        omega
  | redoOp =>
      unfold histInv at hh ⊢
      unfold applyHistOp redo
      cases hf : h.future with
      | nil => simpa [hf] using hh
      | cons f rest =>
          rw [hf] at hh
          simp only [List.length_append, List.length_cons, List.length_nil] at hh ⊢
          omega

theorem histInv_foldl (l : List HistOp) :
    ∀ h : HistoryState, histInv h → histInv (l.foldl applyHistOp h) := by
  induction l with
  | nil => intro h hh; exact hh
  | cons op rest ih =>
      intro h hh
      exact ih (applyHistOp h op) (histInv_applyHistOp h op hh)

theorem histInv_runHist (l : List HistOp) : histInv (runHist l) := by
  unfold runHist
  refine histInv_foldl l initHistory ?_
  unfold histInv initHistory maxHistorySize
  simp

/-! ### Claims about HistoryManager -/

/-- Claim C1: for every HistoryManager state reachable by a sequence of
pushState calls in which each new text differs from the current text by
more than the 5-character length threshold, if past is non-empty then
calling undo() and immediately afterwards redo() leaves current equal to
the value current had just before the undo. -/
theorem C1_undo_redo_roundtrip (l : List String)
    (_hq : deltaRun initHistory l)
    (hp : (pushAll initHistory l).past ≠ []) :
    (redo (undo (pushAll initHistory l)).2).2.current = (pushAll initHistory l).current :=
  undo_redo_current (pushAll initHistory l) hp

theorem C1_witness :
    deltaRun initHistory ["ABCDEFG", "ABCDEFGHIJKLMN"] ∧
    (pushAll initHistory ["ABCDEFG", "ABCDEFGHIJKLMN"]).past ≠ [] ∧
    (redo (undo (pushAll initHistory ["ABCDEFG", "ABCDEFGHIJKLMN"])).2).2.current
      = (pushAll initHistory ["ABCDEFG", "ABCDEFGHIJKLMN"]).current :=
  ⟨by decide, by decide,
   C1_undo_redo_roundtrip ["ABCDEFG", "ABCDEFGHIJKLMN"] (by decide) (by decide)⟩

/-- A state whose past stack is already full, for exercising eviction. -/
def h50 : HistoryState :=
  { past := List.replicate maxHistorySize "x", future := [], current := "y"
    isNavigating := false }

/-- Claim C2: every HistoryManager state reachable from the initial state
by any sequence of pushState, undo and redo calls has past.length ≤ 50;
and a recording pushState performed when past.length is already 50 evicts
the oldest (bottom) entry rather than growing the stack. -/
theorem C2_history_bounded (l : List HistOp) (h : HistoryState) (t : String) :
    (runHist l).past.length ≤ maxHistorySize ∧
    (h.isNavigating = false → h.past.length = maxHistorySize →
      qualifies h.current t →
      (pushState h t).past = h.past.tail ++ [h.current]) := by
  constructor
  · have hinv := histInv_runHist l
    unfold histInv at hinv
    omega
  · intro hn hlen hq
    unfold pushState
    have hgt : maxHistorySize < h.past.length + 1 := by omega
    simp [hn, hq, hgt]
    cases hp : h.past with
    | nil => rw [hp] at hlen; simp [maxHistorySize] at hlen
    | cons a rest => simp

theorem C2_witness :
    (runHist [HistOp.pushOp "hello"]).past.length ≤ maxHistorySize ∧
    (pushState h50 "1234567890").past = h50.past.tail ++ ["y"] :=
  ⟨(C2_history_bounded [HistOp.pushOp "hello"] h50 "1234567890").1,
   (C2_history_bounded [HistOp.pushOp "hello"] h50 "1234567890").2 rfl (by decide) (by decide)⟩

/-- Claim C3: pushState with the suppression flag set clears the flag and
leaves past, future and current unchanged; an unsuppressed pushState
appends the old current onto past exactly when current is non-empty,
differs from the new text, and the length delta exceeds 5 characters, and
in every unsuppressed case sets current to the new text and empties
future. -/
theorem C3_pushState_cases (h : HistoryState) (t : String) :
    (h.isNavigating = true → pushState h t = { h with isNavigating := false }) ∧
    (h.isNavigating = false →
      (pushState h t).current = t ∧
      (pushState h t).future = [] ∧
      (qualifies h.current t → ∃ p, (pushState h t).past = p ++ [h.current]) ∧
      (¬ qualifies h.current t → (pushState h t).past = h.past)) := by
  constructor
  · intro hn
    unfold pushState
    simp [hn]
  · intro hn
    refine ⟨?_, ?_, ?_, ?_⟩
    · unfold pushState
      simp [hn]
    · unfold pushState
      simp [hn]
    · intro hq
      unfold pushState
      simp [hn, hq]
      by_cases hlen : maxHistorySize < h.past.length + 1
      · refine ⟨h.past.tail, ?_⟩
        simp [hlen]
        cases hp : h.past with
        | nil => rw [hp] at hlen; simp [maxHistorySize] at hlen
        | cons a rest => simp
      · exact ⟨h.past, by simp [hlen]⟩
    · intro hq
      unfold pushState
      simp [hn, hq]

/-- A small state for exercising the recording branch of pushState. -/
def c3Hist : HistoryState :=
  { past := [], future := [], current := "abcdefgh", isNavigating := false }

theorem C3_witness :
    (pushState c3Hist "x").current = "x" ∧ (pushState c3Hist "x").future = [] ∧
    ∃ p, (pushState c3Hist "x").past = p ++ [c3Hist.current] := by
  have h := (C3_pushState_cases c3Hist "x").2 rfl
  exact ⟨h.1, h.2.1, h.2.2.1 (by decide)⟩

/-! ### Claims about StorageManager -/

/-- Claim C8 counterexample: with no pending entry for the key and an empty
string stored durably under it, read returns the supplied default rather
than the stored durable value (the JS || discards the falsy empty
string). -/
theorem C8_counterexample :
    assocLookup ({ pending := [], durable := [("k", "")] } : StorageState).pending "k" = none ∧
    assocLookup ({ pending := [], durable := [("k", "")] } : StorageState).durable "k" = some "" ∧
    getFromLocalStorage { pending := [], durable := [("k", "")] } "k" "fallback" = "fallback" ∧
    "fallback" ≠ "" :=
  ⟨by decide, by decide, by decide, by decide⟩

/-- Claim C8 (amended): read returns the pending value whenever the pending
map contains the key (read-your-writes, including a pending empty string);
otherwise it returns the durable value when one is present and non-empty;
otherwise — no durable value, or an empty durable value, which falls
through the JS || — it returns the default. -/
theorem C8_read_pending_first (s : StorageState) (key d v : String) :
    (assocLookup s.pending key = some v → getFromLocalStorage s key d = v) ∧
    (assocLookup s.pending key = none → assocLookup s.durable key = some v → v ≠ "" →
      getFromLocalStorage s key d = v) ∧
    (assocLookup s.pending key = none →
      (assocLookup s.durable key = none ∨ assocLookup s.durable key = some "") →
      getFromLocalStorage s key d = d) := by
  refine ⟨?_, ?_, ?_⟩ <;> unfold getFromLocalStorage
  · intro hp
    simp [hp]
  · intro hp hd hv
    simp [hp, hd, hv]
  · intro hp hd
    rcases hd with hd | hd <;> simp [hp, hd]

theorem C8_witness :
    getFromLocalStorage { pending := [("k", "")], durable := [("k", "stale")] } "k" "d" = "" :=
  (C8_read_pending_first { pending := [("k", "")], durable := [("k", "stale")] } "k" "d" "").1
    (by decide)

/-- A failure pattern under which only the write to the key named big
throws. -/
def c9Fails : String → String → Bool := fun key _ => key == "big"

/-- Claim C9 counterexample: a flush over a pending map whose only entry
throws on its durable write terminates with the pending map NOT cleared:
the exception propagates out of forEach before clear() runs. -/
theorem C9_counterexample :
    (flushWrites c9Fails { pending := [("big", "v")], durable := [] }).2 = true ∧
    (flushWrites c9Fails { pending := [("big", "v")], durable := [] }).1.pending
      = [("big", "v")] ∧
    (flushWrites c9Fails { pending := [("big", "v")], durable := [] }).1.pending ≠ [] :=
  ⟨by decide, by decide, by decide⟩

/-- Claim C9 (amended): the flush empties the pending map when every
durable write performed during it succeeds; when a durable write fails, the
exception propagates before the clear, leaving the pending map exactly as
it was (so the empty-on-any-outcome behaviour claimed by the spec does not
hold). -/
theorem C9_flush_pending (fails : String → String → Bool) (s : StorageState) :
    ((flushWrites fails s).2 = false → (flushWrites fails s).1.pending = []) ∧
    ((flushWrites fails s).2 = true → (flushWrites fails s).1.pending = s.pending) := by
  unfold flushWrites
  cases hfl : flushLoop fails s.pending s.durable <;> simp

theorem C9_witness :
    (flushWrites (fun _ _ => false) { pending := [("a", "1")], durable := [] }).1.pending = [] :=
  (C9_flush_pending (fun _ _ => false) { pending := [("a", "1")], durable := [] }).1 (by decide)

/-! ### SectionManager: the persisted enrichment-result keys

Source: `class SectionManager` (src/unnamed/part_000, lines 1917-2181).
The five enrichment sections and the key under which `saveSectionContent`
persists the panel text. -/

inductive Section where
  | summary
  | translation
  | grammar
  | rewriting
  | keywords
deriving Repr, DecidableEq

def Section.name : Section → String
  | Section.summary => "summary"
  | Section.translation => "translation"
  | Section.grammar => "grammar"
  | Section.rewriting => "rewriting"
  | Section.keywords => "keywords"

/-- The embedding of `TranslationManager`: its `getSelectedLanguage()`
value. -/
structure TranslationMgr where
  selected : String
deriving Repr, DecidableEq

/-- `saveSectionContent()` (lines 2134-2145): no-op unless a note id, a
panel element and an active section are all set; stores the panel text
under `{noteId}-{section}`, or `{noteId}-translation-{language}` when the
active section is translation and a TranslationManager is wired. -/
def saveSectionContent (store : StorageState) (currentNoteId : Option String)
    (currentSectionElement : Option String) (activeSection : Option Section)
    (translationManager : Option TranslationMgr) : StorageState :=
  match currentNoteId, currentSectionElement, activeSection with
  | some noteId, some content, some sec =>
      let key :=
        match sec, translationManager with
        | Section.translation, some tm =>
            noteId ++ "-" ++ Section.name Section.translation ++ "-" ++ tm.selected
        | _, _ => noteId ++ "-" ++ sec.name
      saveToLocalStorage store key content
  | _, _, _ => store

/-! ### TabManager

Source: `class TabManager` (src/unnamed/part_000, lines 1425-1733).  The
DOM note element's text is the `noteText` field; tab rendering, line
numbers, scroll syncing and cursor placement are pure output and carry no
state that any claim mentions.  The enrichment panel owned by
SectionManager is modelled separately above.  An operation that would
dereference `undefined` (a missing tab index or history entry) is a JS
TypeError; such a path returns `none`. -/

structure Tab where
  id : String
  title : String
deriving Repr, DecidableEq

structure TabMgr where
  tabs : List Tab
  tabHistories : List (String × HistoryState)
  currentTabIndex : Int
  noteText : String
  store : StorageState
deriving Repr, DecidableEq

/-- The `JSON.stringify` of the tab list, opaque to every claim; modelled
as a plain concatenation. -/
def encodeTabs (tabs : List Tab) : String :=
  String.intercalate ";" (tabs.map (fun t => t.id ++ "," ++ t.title))

/-- `saveTabsToStorage()`: persist the document list and the active
index. -/
def saveTabsToStorage (m : TabMgr) : TabMgr :=
  let store1 := saveToLocalStorage m.store "tabs" (encodeTabs m.tabs)
  let store2 := saveToLocalStorage store1 "currentTabIndex" (toString m.currentTabIndex)
  { m with store := store2 }

/-- `saveCurrentTabContent()`: persist the active document's text and push
it onto that document's history. -/
def saveCurrentTabContent (m : TabMgr) : Option TabMgr :=
  if m.currentTabIndex = -1 then some m
  else if m.currentTabIndex < 0 then none
  else
    match m.tabs[m.currentTabIndex.toNat]? with
    | none => none
    | some currentTab =>
        match assocLookup m.tabHistories currentTab.id with
        | none => none
        | some hist =>
            some { m with
              store := saveToLocalStorage m.store currentTab.id m.noteText
              tabHistories :=
                assocSet m.tabHistories currentTab.id (pushState hist m.noteText) }

/-- `switchTab(index)` (lines 1482-1501): no-op when the index is already
active; otherwise save the outgoing document, switch the index, and load
the incoming content — `historyManager.current || store read` (the JS `||`
prefers the in-memory history current unless it is the falsy empty
string). -/
def switchTab (m : TabMgr) (index : Int) : Option TabMgr :=
  if m.currentTabIndex = index then some m
  else
    match saveCurrentTabContent m with
    | none => none
    | some m1 =>
        if index < 0 then none
        else
          match m1.tabs[index.toNat]? with
          | none => none
          | some currentTab =>
              match assocLookup m1.tabHistories currentTab.id with
              | none => none
              | some historyManager =>
                  let newContent :=
                    if historyManager.current = "" then
                      getFromLocalStorage m1.store currentTab.id ""
                    else historyManager.current
                  let m3 : TabMgr := { m1 with
                    currentTabIndex := index
                    noteText := newContent
                    tabHistories := assocSet m1.tabHistories currentTab.id
                      { historyManager with current := newContent } }
                  some (saveTabsToStorage m3)

/-- The five enrichment-result key suffixes that `closeTab` removes. -/
def sectionNames : List String :=
  ["summary", "translation", "grammar", "rewriting", "keywords"]

/-- `closeTab(index)` (lines 1512-1548): rejected outright when one
document remains; otherwise splice the tab out, delete its history, remove
its content key and the five bare `{id}-{section}` keys, recompute the
active index, persist, and when the active tab was closed re-run
`switchTab` on the resolved index (after resetting the index to -1 so the
switch is not skipped as a no-op). -/
def closeTab (m : TabMgr) (index : Nat) : Option TabMgr :=
  if m.tabs.length ≤ 1 then some m
  else
    match m.tabs[index]? with
    | none => none
    | some tabToClose =>
        let wasActiveTab : Bool := (index : Int) == m.currentTabIndex
        let tabs1 := m.tabs.eraseIdx index
        let histories1 := assocErase m.tabHistories tabToClose.id
        let store1 := removeFromLocalStorage m.store tabToClose.id
        let store2 := sectionNames.foldl
          (fun st sec => removeFromLocalStorage st (tabToClose.id ++ "-" ++ sec)) store1
        let newIndex : Int :=
          if wasActiveTab then
            if (index : Int) ≥ (tabs1.length : Int) then (tabs1.length : Int) - 1
            else (index : Int)
          else if (index : Int) < m.currentTabIndex then m.currentTabIndex - 1
          else m.currentTabIndex
        let m4 := saveTabsToStorage
          { tabs := tabs1, tabHistories := histories1, currentTabIndex := newIndex
            noteText := m.noteText, store := store2 }
        if wasActiveTab then
          switchTab { m4 with currentTabIndex := -1 }
            (if (index : Int) ≥ (tabs1.length : Int) then (tabs1.length : Int) - 1
             else (index : Int))
        else some m4

/-- `createNewTab()` (lines 1466-1480): save the active document if one is
active, append a fresh document titled after the new count, give it a fresh
HistoryManager, and switch to it.  The time-derived id is the `freshId`
argument. -/
def createNewTab (m : TabMgr) (freshId : String) : Option TabMgr :=
  match (if m.currentTabIndex ≠ -1 then saveCurrentTabContent m else some m) with
  | none => none
  | some m1 =>
      let tab : Tab := { id := freshId, title := "Note " ++ toString (m1.tabs.length + 1) }
      let m2 : TabMgr := { m1 with
        tabs := m1.tabs ++ [tab]
        tabHistories := assocSet m1.tabHistories freshId initHistory }
      switchTab m2 ((m2.tabs.length : Int) - 1)

/-! ### Reachable session states -/

inductive TabOp where
  | create (freshId : String)
  | close (index : Nat)
  | switchTo (index : Int)
deriving Repr, DecidableEq

/-- One user-level session operation.  An operation that aborts on a
missing dereference (`none`, a JS TypeError) contributes no state change
here; on a well-formed call every dereference precedes the splice, so this
choice cannot hide a decrease of the document count. -/
def applyTabOp (m : TabMgr) : TabOp → TabMgr
  | TabOp.create fid => (createNewTab m fid).getD m
  | TabOp.close i => (closeTab m i).getD m
  | TabOp.switchTo i => (switchTab m i).getD m

def emptyMgr : TabMgr :=
  { tabs := [], tabHistories := [], currentTabIndex := -1, noteText := ""
    store := { pending := [], durable := [] } }

/-- The constructor path with no previously saved tab list: create exactly
one fresh document. -/
def initMgr (freshId : String) : TabMgr :=
  (createNewTab emptyMgr freshId).getD emptyMgr

/-- The session state after a sequence of create/close/switch calls on a
fresh session. -/
def runTabOps (freshId : String) (l : List TabOp) : TabMgr :=
  l.foldl applyTabOp (initMgr freshId)

theorem saveCurrentTabContent_tabs (m m' : TabMgr)
    (h : saveCurrentTabContent m = some m') : m'.tabs = m.tabs := by
  unfold saveCurrentTabContent at h
  by_cases h1 : m.currentTabIndex = -1
  · rw [if_pos h1] at h
    cases h
    rfl
  · rw [if_neg h1] at h
    by_cases h2 : m.currentTabIndex < 0
    · rw [if_pos h2] at h
      cases h
    · rw [if_neg h2] at h
      cases ht : m.tabs[m.currentTabIndex.toNat]? with
      | none => rw [ht] at h; cases h
      | some currentTab =>
          rw [ht] at h
          dsimp only [] at h
          cases hh : assocLookup m.tabHistories currentTab.id with
          | none => rw [hh] at h; cases h
          | some hist =>
              rw [hh] at h
              cases h
              rfl

theorem switchTab_tabs (m : TabMgr) (i : Int) (m' : TabMgr)
    (h : switchTab m i = some m') : m'.tabs = m.tabs := by
  unfold switchTab at h
  by_cases h0 : m.currentTabIndex = i
  · rw [if_pos h0] at h
    cases h
    rfl
  · rw [if_neg h0] at h
    cases hs : saveCurrentTabContent m with
    | none => rw [hs] at h; cases h
    | some m1 =>
        rw [hs] at h
        dsimp only [] at h
        have ht1 : m1.tabs = m.tabs := saveCurrentTabContent_tabs m m1 hs
        by_cases h2 : i < 0
        · rw [if_pos h2] at h
          cases h
        · rw [if_neg h2] at h
          cases ht : m1.tabs[i.toNat]? with
          | none => rw [ht] at h; cases h
          | some currentTab =>
              rw [ht] at h
              dsimp only [] at h
              cases hh : assocLookup m1.tabHistories currentTab.id with
              | none => rw [hh] at h; cases h
              | some historyManager =>
                  rw [hh] at h
                  cases h
                  exact ht1

theorem initMgr_tabs_length (freshId : String) : (initMgr freshId).tabs.length = 1 := by
  simp [initMgr, createNewTab, emptyMgr, switchTab, saveCurrentTabContent,
    saveTabsToStorage, assocSet, assocLookup]

theorem createNewTab_tabs_length (m : TabMgr) (fid : String) (m' : TabMgr)
    (h : createNewTab m fid = some m') : 1 ≤ m'.tabs.length := by
  unfold createNewTab at h
  cases hs : (if m.currentTabIndex ≠ -1 then saveCurrentTabContent m else some m) with
  | none => rw [hs] at h; cases h
  | some m1 =>
      rw [hs] at h
      rw [switchTab_tabs _ _ _ h]
      show 1 ≤ (m1.tabs ++ [_]).length
      simp

theorem closeTab_tabs_length (m : TabMgr) (i : Nat) (m' : TabMgr)
    (h : closeTab m i = some m') (hm : 1 ≤ m.tabs.length) : 1 ≤ m'.tabs.length := by
  unfold closeTab at h
  by_cases h1 : m.tabs.length ≤ 1
  · rw [if_pos h1] at h
    cases h
    exact hm
  · rw [if_neg h1] at h
    cases ht : m.tabs[i]? with
    | none => rw [ht] at h; cases h
    | some tabToClose =>
        rw [ht] at h
        dsimp only [] at h
        have herase : 1 ≤ (m.tabs.eraseIdx i).length := by
          rcases Nat.lt_or_ge i m.tabs.length with hlt | hge
          · rw [List.length_eraseIdx_of_lt hlt]; omega
          · rw [List.eraseIdx_of_length_le hge]; omega
        by_cases hact : ((i : Int) == m.currentTabIndex) = true
        · rw [if_pos hact] at h
          rw [switchTab_tabs _ _ _ h]
          exact herase
        · rw [if_neg hact] at h
          cases h
          exact herase

theorem applyTabOp_tabs_length (m : TabMgr) (op : TabOp) (h : 1 ≤ m.tabs.length) :
    1 ≤ (applyTabOp m op).tabs.length := by
  cases op with
  | create fid =>
      unfold applyTabOp
      cases hc : createNewTab m fid with
      | none => simpa [hc] using h
      | some m2 => simpa [hc] using createNewTab_tabs_length m fid m2 hc
  | close i =>
      unfold applyTabOp
      cases hc : closeTab m i with
      | none => simpa [hc] using h
      | some m2 => simpa [hc] using closeTab_tabs_length m i m2 hc h
  | switchTo i =>
      unfold applyTabOp
      cases hw : switchTab m i with
      | none => simpa [hw] using h
      | some m2 => simpa [hw, switchTab_tabs m i m2 hw] using h

theorem tabsLen_foldl (l : List TabOp) :
    ∀ m : TabMgr, 1 ≤ m.tabs.length → 1 ≤ (l.foldl applyTabOp m).tabs.length := by
  induction l with
  | nil => intro m hm; exact hm
  | cons op rest ih =>
      intro m hm
      exact ih (applyTabOp m op) (applyTabOp_tabs_length m op hm)

/-! ### Claims about TabManager -/

/-- Claim C5: every session state reachable from a fresh session keeps at
least one document, and closeTab invoked when exactly one document remains
is rejected, leaving the document list, the active index and the store
unchanged (the whole state is returned as it was). -/
theorem C5_at_least_one_document (fid : String) (l : List TabOp) (m : TabMgr) (i : Nat)
    (hone : m.tabs.length = 1) :
    closeTab m i = some m ∧ 1 ≤ (runTabOps fid l).tabs.length := by
  constructor
  · unfold closeTab
    rw [if_pos (by omega)]
  · unfold runTabOps
    refine tabsLen_foldl l (initMgr fid) ?_
    rw [initMgr_tabs_length fid]

/-- A session holding exactly one document. -/
def oneTabMgr : TabMgr :=
  { tabs := [{ id := "note-1", title := "Note 1" }]
    tabHistories := [("note-1", initHistory)]
    currentTabIndex := 0
    noteText := ""
    store := { pending := [], durable := [] } }

theorem C5_witness :
    closeTab oneTabMgr 0 = some oneTabMgr ∧
    1 ≤ (runTabOps "note-1" [TabOp.create "note-2", TabOp.close 0]).tabs.length :=
  C5_at_least_one_document "note-1" [TabOp.create "note-2", TabOp.close 0] oneTabMgr 0
    (by decide)

/-- The storage contents before closing in the C4 scenario: the document
content saved under the document id, and a translation result persisted by
saveSectionContent under the language-suffixed key. -/
def c4Store : StorageState :=
  saveSectionContent
    (saveToLocalStorage { pending := [], durable := [] } "note1" "Hello")
    (some "note1") (some "Bonjour") (some Section.translation)
    (some { selected := "en" })

/-- A two-document session whose active first document carries the C4
storage contents. -/
def c4Mgr : TabMgr :=
  { tabs := [{ id := "note1", title := "Note 1" }, { id := "note2", title := "Note 2" }]
    tabHistories := [("note1", initHistory), ("note2", initHistory)]
    currentTabIndex := 0
    noteText := "Hello"
    store := c4Store }

/-- Claim C4 fails on the code: closeTab removes the content key and the
five bare section keys — including the never-written bare key
note1-translation — but the translation result actually persisted under
note1-translation-en survives the close, and a subsequent read returns the
stale translation instead of the default. -/
theorem C4_translation_key_survives_close :
    getFromLocalStorage c4Store "note1-translation-en" "" = "Bonjour" ∧
    (closeTab c4Mgr 0).map
        (fun m => (getFromLocalStorage m.store "note1" "",
          getFromLocalStorage m.store "note1-summary" "",
          getFromLocalStorage m.store "note1-translation" "",
          getFromLocalStorage m.store "note1-translation-en" ""))
      = some ("", "", "", "Bonjour") := by
  decide

theorem getFromLocalStorage_save_ne (s : StorageState) (k k' d v : String) (h : k ≠ k') :
    getFromLocalStorage (saveToLocalStorage s k v) k' d = getFromLocalStorage s k' d := by
  unfold getFromLocalStorage saveToLocalStorage
  dsimp only []
  rw [assocLookup_assocSet_ne s.pending k k' v h]

/-- Claim C10: switchTab to an index different from the active one loads,
for the incoming document, its HistoryManager current value when that value
is non-empty, and otherwise the value read from the store under the
document id with the empty string as default — so an in-memory empty
history current is overridden by the persisted content. -/
theorem C10_switchTab_loaded_content (m : TabMgr) (i j : Nat) (tab cur : Tab)
    (hist curHist : HistoryState)
    (hj : m.currentTabIndex = (j : Int))
    (hcur : m.tabs[j]? = some cur)
    (hcurh : assocLookup m.tabHistories cur.id = some curHist)
    (hi : m.tabs[i]? = some tab)
    (hih : assocLookup m.tabHistories tab.id = some hist)
    (hne : j ≠ i) (hid : cur.id ≠ tab.id) :
    ∃ m', switchTab m (i : Int) = some m' ∧
      m'.noteText =
        (if hist.current = "" then getFromLocalStorage m.store tab.id "" else hist.current) := by
  have hsave : saveCurrentTabContent m = some
      { m with
        store := saveToLocalStorage m.store cur.id m.noteText
        tabHistories := assocSet m.tabHistories cur.id (pushState curHist m.noteText) } := by
    unfold saveCurrentTabContent
    rw [hj]
    rw [if_neg (by omega), if_neg (by omega)]
    rw [Int.toNat_natCast, hcur]
    dsimp only []
    rw [hcurh]
  unfold switchTab
  rw [if_neg (by rw [hj]; omega), hsave]
  dsimp only []
  rw [if_neg (by omega)]
  rw [Int.toNat_natCast, hi]
  dsimp only []
  rw [assocLookup_assocSet_ne m.tabHistories cur.id tab.id _ hid, hih]
  dsimp only []
  refine ⟨_, rfl, ?_⟩
  show (if hist.current = ""
      then getFromLocalStorage (saveToLocalStorage m.store cur.id m.noteText) tab.id ""
      else hist.current) = _
  by_cases hc : hist.current = ""
  · rw [if_pos hc, if_pos hc, getFromLocalStorage_save_ne m.store cur.id tab.id "" m.noteText hid]
  · rw [if_neg hc, if_neg hc]

/-- A two-document session in which the incoming document's history holds
the in-memory text remembered, while its persisted content differs. -/
def c10Mgr : TabMgr :=
  { tabs := [{ id := "a", title := "Note 1" }, { id := "b", title := "Note 2" }]
    tabHistories :=
      [("a", initHistory),
       ("b", { past := [], future := [], current := "remembered", isNavigating := false })]
    currentTabIndex := 0
    noteText := "typing"
    store := { pending := [], durable := [("b", "persisted")] } }

theorem C10_witness :
    ∃ m', switchTab c10Mgr (1 : Nat) = some m' ∧
      m'.noteText =
        (if ({ past := [], future := [], current := "remembered",
               isNavigating := false } : HistoryState).current = ""
         then getFromLocalStorage c10Mgr.store "b" ""
         else "remembered") :=
  C10_switchTab_loaded_content c10Mgr 1 0 { id := "b", title := "Note 2" }
    { id := "a", title := "Note 1" }
    { past := [], future := [], current := "remembered", isNavigating := false }
    initHistory (by decide) (by decide) (by decide) (by decide) (by decide) (by decide)
    (by decide)

/-! ### SectionManager: enrichment job orchestration

Source: `handleAiWrite` (lines 1979-2044), `pollForStatus` (lines
2046-2092), `generateCacheKey` (lines 1943-1952). -/

/-- The JSON-parsed result payload of a completed job: either an object
with per-operation string fields (an absent field reads as undefined) or an
array of keyword strings. -/
inductive ApiResult where
  | obj (summary content proofread paraphrase : Option String)
  | arr (items : List String)
deriving Repr, DecidableEq

/-- JS `x || fallback` on an optional string: undefined and the empty
string are both falsy. -/
def jsOr (o : Option String) (fallback : String) : String :=
  match o with
  | some s => if s = "" then fallback else s
  | none => fallback

/-- Lines 2061-2076: pick the operation-specific field out of the parsed
result, with the per-operation fallback message.  For keywords, a parsed
array is joined with a comma separator — an EMPTY array joins to the empty
string. -/
def parseFinalResult (activeSection : Section) (result : ApiResult) : String :=
  match activeSection with
  | Section.summary =>
      jsOr (match result with | ApiResult.obj s _ _ _ => s | ApiResult.arr _ => none)
        "No summary found."
  | Section.translation =>
      jsOr (match result with | ApiResult.obj _ c _ _ => c | ApiResult.arr _ => none)
        "No translation found."
  | Section.grammar =>
      jsOr (match result with | ApiResult.obj _ _ p _ => p | ApiResult.arr _ => none)
        "No proofread result found."
  | Section.rewriting =>
      jsOr (match result with | ApiResult.obj _ _ _ p => p | ApiResult.arr _ => none)
        "No rewritten text found."
  | Section.keywords =>
      match result with
      | ApiResult.arr items => String.intercalate ", " items
      | ApiResult.obj _ _ _ _ => "No keywords found."

/-- `response.data.attributes` of one status read, with the result payload
already JSON-parsed.  A read that throws (network or shape error) is
`Except.error` carrying the message. -/
structure StatusAttributes where
  status : String
  result : ApiResult
  message : Option String
deriving Repr, DecidableEq

inductive PollOutcome where
  | timeout
  | success (finalResult : String)
  | jobFailed (message : String)
  | pollError (message : String)
deriving Repr, DecidableEq

def maxRetries : Nat := 10

/-- `pollForStatus(statusUrl, apiKey, cacheKey, retries)`, abstracted over
the sequence of status-read responses indexed by retry count.  Returns the
outcome together with the number of status reads issued from this retry
count on.  The fixed ≈3 s interval is scheduling and carries no state. -/
def pollForStatus (activeSection : Section)
    (responses : Nat → Except String StatusAttributes) (retries : Nat) :
    PollOutcome × Nat :=
  if _h : maxRetries ≤ retries then (PollOutcome.timeout, 0)
  else
    match responses retries with
    | Except.error msg => (PollOutcome.pollError msg, 1)
    | Except.ok attrs =>
        if attrs.status = "completed" ∨ attrs.status = "success" then
          (PollOutcome.success (parseFinalResult activeSection attrs.result), 1)
        else if attrs.status = "failed" then
          (PollOutcome.jobFailed (jsOr attrs.message "Unknown error"), 1)
        else
          let rest := pollForStatus activeSection responses (retries + 1)
          (rest.1, rest.2 + 1)
termination_by maxRetries - retries
decreasing_by simp_wf; omega

/-- A status read answered with a non-terminal status. -/
def nonTerminal (r : Except String StatusAttributes) : Prop :=
  ∃ attrs, r = Except.ok attrs ∧ attrs.status ≠ "completed" ∧
    attrs.status ≠ "success" ∧ attrs.status ≠ "failed"

theorem pollForStatus_timeout_from (activeSection : Section)
    (responses : Nat → Except String StatusAttributes)
    (hnt : ∀ n, n < maxRetries → nonTerminal (responses n)) :
    ∀ gas retries, retries + gas = maxRetries →
      pollForStatus activeSection responses retries = (PollOutcome.timeout, gas) := by
  intro gas
  induction gas with
  | zero =>
      intro retries hr
      rw [pollForStatus]
      rw [dif_pos (by omega)]
  | succ g ih =>
      intro retries hr
      obtain ⟨attrs, hresp, hc, hs, hf⟩ := hnt retries (by omega)
      rw [pollForStatus]
      rw [dif_neg (by omega)]
      rw [hresp]
      dsimp only []
      rw [if_neg (not_or.mpr ⟨hc, hs⟩)]
      rw [if_neg hf]
      rw [ih (retries + 1) (by omega)]

/-- Claim C6: when every status read answers with a non-terminal status,
polling from retry count 0 issues exactly 10 status reads (retry counts 0
through 9) and then reports a timeout once the retry count reaches 10 —
never an 11th read (the response sequence is consulted only at indices
below 10). -/
theorem C6_poll_ten_reads_then_timeout (activeSection : Section)
    (responses : Nat → Except String StatusAttributes)
    (hnt : ∀ n, n < maxRetries → nonTerminal (responses n)) :
    pollForStatus activeSection responses 0 = (PollOutcome.timeout, maxRetries) :=
  pollForStatus_timeout_from activeSection responses hnt maxRetries 0 (by omega)

/-- A status endpoint that always answers pending. -/
def c6Responses : Nat → Except String StatusAttributes :=
  fun _ => Except.ok { status := "pending", result := ApiResult.arr [], message := none }

theorem C6_witness :
    pollForStatus Section.summary c6Responses 0 = (PollOutcome.timeout, maxRetries) :=
  C6_poll_ten_reads_then_timeout Section.summary c6Responses
    (fun _ _ =>
      ⟨{ status := "pending", result := ApiResult.arr [], message := none },
        rfl, by decide, by decide, by decide⟩)

/-- `generateCacheKey(content)`: operation name, note id, the first 16 hex
digits of the SHA-256 digest of the content, and the selected language when
translating.  The digest is the browser crypto collaborator, abstracted as
a function argument. -/
def generateCacheKey (digest : String → String) (activeSection : Section)
    (currentNoteId : String) (translationManager : Option TranslationMgr)
    (content : String) : String :=
  activeSection.name ++ "-" ++ currentNoteId ++ "-" ++ (digest content).take 16 ++ "-" ++
    (match activeSection, translationManager with
     | Section.translation, some tm => tm.selected
     | _, _ => "")

def apiPathFor : Section → String
  | Section.summary => "/v1/content/summarize"
  | Section.translation => "/v1/content/translate"
  | Section.grammar => "/v1/content/proofread"
  | Section.rewriting => "/v1/content/paraphrase"
  | Section.keywords => "/v1/content/keywords"

/-- The user-visible outcome of one handleAiWrite call.  `submit` is a
network POST to the operation endpoint with the given request language;
every other outcome performs no network call. -/
inductive AiOutcome where
  | noSection
  | apiKeyModal
  | contentAlert
  | cachedHit (result : String)
  | submit (apiPath : String) (language : Option String)
deriving Repr, DecidableEq

/-- The SectionManager state read and written by handleAiWrite: the active
section, the active note id, the wired TranslationManager, the volatile
apiCache object, and the text of the current section panel. -/
structure EnrichState where
  activeSection : Option Section
  currentNoteId : Option String
  translationManager : Option TranslationMgr
  apiCache : List (String × String)
  panelText : String
deriving Repr, DecidableEq

/-- The JS `String.prototype.trim()` on the note text: strip leading and
trailing whitespace.  (Lean's own `String.trim` is equivalent here but is
defined by well-founded recursion on byte positions; this structural form
evaluates.) -/
def jsTrim (s : String) : String :=
  String.mk ((s.data.dropWhile Char.isWhitespace).reverse.dropWhile Char.isWhitespace).reverse

/-- `handleAiWrite()` up to the asynchronous submission boundary: clear any
pending poll timer (stateless here), require an api key (else show the
modal), require non-empty trimmed note content (else alert), compute the
cache key; a truthy cached value is rendered and persisted with no network
call — an absent OR EMPTY cached value falls through the JS truthiness
check to the network path, which renders the Loading indicator and submits
the POST. -/
def handleAiWrite (digest : String → String) (st : EnrichState) (store : StorageState)
    (noteRaw : String) : AiOutcome × EnrichState × StorageState :=
  match st.activeSection with
  | none => (AiOutcome.noSection, st, store)
  | some sec =>
      let apiKey := getFromLocalStorage store "apiKey" ""
      if apiKey = "" then (AiOutcome.apiKeyModal, st, store)
      else
        let noteContent := jsTrim noteRaw
        if noteContent = "" then (AiOutcome.contentAlert, st, store)
        else
          let noteId := st.currentNoteId.getD "null"
          let cacheKey := generateCacheKey digest sec noteId st.translationManager noteContent
          match assocLookup st.apiCache cacheKey with
          | some c =>
              if c = "" then
                (AiOutcome.submit (apiPathFor sec)
                    (match sec, st.translationManager with
                     | Section.translation, some tm => some tm.selected
                     | _, _ => none),
                 { st with panelText := "Loading..." }, store)
              else
                (AiOutcome.cachedHit c,
                 { st with panelText := c },
                 saveSectionContent store st.currentNoteId (some c) st.activeSection
                   st.translationManager)
          | none =>
              (AiOutcome.submit (apiPathFor sec)
                  (match sec, st.translationManager with
                   | Section.translation, some tm => some tm.selected
                   | _, _ => none),
               { st with panelText := "Loading..." }, store)

/-- The state updates of the success branch of pollForStatus: render the
final result, cache it under the volatile cache key, persist it under the
per-document-per-operation storage key. -/
def applyPollSuccess (st : EnrichState) (store : StorageState)
    (cacheKey finalResult : String) : EnrichState × StorageState :=
  let st1 : EnrichState := { st with
    panelText := finalResult
    apiCache := assocSet st.apiCache cacheKey finalResult }
  (st1,
   saveSectionContent store st1.currentNoteId (some st1.panelText) st1.activeSection
     st1.translationManager)

/-- A fixed digest stand-in for the crypto collaborator; the claims only
need that identical text yields an identical digest. -/
def c7Digest : String → String := fun _ => "0123456789abcdef"

def c7State : EnrichState :=
  { activeSection := some Section.keywords
    currentNoteId := some "note1"
    translationManager := some { selected := "en" }
    apiCache := []
    panelText := "" }

def c7Store : StorageState := { pending := [("apiKey", "KEY")], durable := [] }

def c7Key : String :=
  generateCacheKey c7Digest Section.keywords "note1" (some { selected := "en" }) "hello world"

/-- A status endpoint whose job completes at once with an empty keyword
list. -/
def c7Responses : Nat → Except String StatusAttributes :=
  fun _ => Except.ok { status := "completed", result := ApiResult.arr [], message := none }

/-- The session state after the first run has completed successfully: the
polled job returned an empty keyword list, so the cached final result is
the empty string. -/
def c7AfterFirstRun : EnrichState × StorageState :=
  applyPollSuccess { c7State with panelText := "Job accepted. Waiting for result..." }
    c7Store c7Key (parseFinalResult Section.keywords (ApiResult.arr []))

/-- Claim C7 fails on the code: the first keywords run submits, the job
completes successfully with an empty keyword list, the empty final result
is cached under the key — and the second identical call misses the
JS-truthiness cache check (`if (this.apiCache[cacheKey])` is falsy on the
empty string) and submits a second network POST instead of rendering the
cached result. -/
theorem C7_counterexample :
    (handleAiWrite c7Digest c7State c7Store "hello world").1
      = AiOutcome.submit "/v1/content/keywords" none ∧
    pollForStatus Section.keywords c7Responses 0 = (PollOutcome.success "", 1) ∧
    assocLookup c7AfterFirstRun.1.apiCache c7Key = some "" ∧
    (handleAiWrite c7Digest c7AfterFirstRun.1 c7AfterFirstRun.2 "hello world").1
      = AiOutcome.submit "/v1/content/keywords" none := by
  have h1 : parseFinalResult Section.keywords (ApiResult.arr []) = "" := by decide
  refine ⟨by decide, ?_, by decide, by decide⟩
  rw [pollForStatus]
  rw [dif_neg (by decide)]
  dsimp only [c7Responses]
  rw [if_pos (Or.inl rfl)]
  rw [h1]

/-- Claim C7 (amended): a second runEnrichment call with the identical
operation, document, language and source text renders and persists the
cached result and performs zero network calls PROVIDED the cached result is
a non-empty string; an empty cached result — producible by a successful
keywords run whose service answer is an empty list — is falsy to the cache
check and triggers a fresh network submission instead. -/
theorem C7_cached_hit_nonempty (digest : String → String) (st : EnrichState)
    (store : StorageState) (noteRaw : String) (sec : Section) (v : String)
    (hsec : st.activeSection = some sec)
    (hkey : getFromLocalStorage store "apiKey" "" ≠ "")
    (hcontent : jsTrim noteRaw ≠ "")
    (hcache : assocLookup st.apiCache
        (generateCacheKey digest sec (st.currentNoteId.getD "null") st.translationManager
          (jsTrim noteRaw)) = some v)
    (hv : v ≠ "") :
    handleAiWrite digest st store noteRaw
      = (AiOutcome.cachedHit v, { st with panelText := v },
         saveSectionContent store st.currentNoteId (some v) st.activeSection
           st.translationManager) := by
  unfold handleAiWrite
  rw [hsec]
  dsimp only []
  rw [if_neg hkey, if_neg hcontent, hcache]
  dsimp only []
  rw [if_neg hv]

/-- A state holding a non-empty cached summary for the exact key of the
call below. -/
def c7wState : EnrichState :=
  { activeSection := some Section.summary
    currentNoteId := some "note1"
    translationManager := none
    apiCache := [(generateCacheKey c7Digest Section.summary "note1" none "hello",
      "A result.")]
    panelText := "" }

theorem C7_witness :
    handleAiWrite c7Digest c7wState c7Store "hello"
      = (AiOutcome.cachedHit "A result.",
         { c7wState with panelText := "A result." },
         saveSectionContent c7Store (some "note1") (some "A result.")
           (some Section.summary) none) :=
  C7_cached_hit_nonempty c7Digest c7wState c7Store "hello" Section.summary "A result."
    (by decide) (by decide) (by decide) (by decide) (by decide)

end BrowserNotepad
